import Mathlib

/-!
# popover-lite — verification of the placement engine

Shallow embedding of the placement logic of `popover-lite`, in two
generations:

* **v0.2.0** (`src/unnamed/part_000`): `getAvailableSpace` and the
  first-fit selector `findBestPlacement` ("Policy A"), plus the
  controller glue `update` / `destroy` / default `fallbacks`.
* **v0.1.2** (`src/src/index.ts`): the scoring engine `computeScores`
  and the selector `computeBest` ("Policy B").

Geometry numbers are modelled as rationals (`ℚ`); the source operates on
finite, non-NaN JavaScript numbers and performs only field arithmetic,
comparisons, `Math.max` and `Math.abs`, all of which `ℚ` reproduces.
-/

namespace PopoverLite

/-- The four cardinal placements, `type Placement = 'top'|'bottom'|'left'|'right'`. -/
inductive Placement where
  | top
  | bottom
  | left
  | right
deriving DecidableEq, Repr, Fintype

/-- A bounding rectangle as returned by `getBoundingClientRect()`:
position and size in viewport coordinates. -/
structure Rect where
  top : ℚ
  left : ℚ
  width : ℚ
  height : ℚ
deriving DecidableEq, Repr

/-- `rect.bottom` of a DOMRect. -/
def Rect.bottom (r : Rect) : ℚ := r.top + r.height

/-- `rect.right` of a DOMRect. -/
def Rect.right (r : Rect) : ℚ := r.left + r.width

/-- The visible window: `window.innerWidth` × `window.innerHeight`. -/
structure Viewport where
  width : ℚ
  height : ℚ
deriving DecidableEq, Repr

/-- The panel's required footprint: `offsetWidth` × `offsetHeight`. -/
structure Size where
  width : ℚ
  height : ℚ
deriving DecidableEq, Repr

/-! ## v0.2.0 — `getAvailableSpace` and `findBestPlacement` (Policy A) -/

/-- `getAvailableSpace(anchor, placement)` from v0.2.0: distance from the
anchor's edge on the given side to the corresponding viewport edge. -/
def getAvailableSpace (rect : Rect) (vp : Viewport) : Placement → ℚ
  | .top => rect.top
  | .bottom => vp.height - rect.bottom
  | .left => rect.left
  | .right => vp.width - rect.right

/-- The `placement === "top" || placement === "bottom" ? needed.height
: needed.width` ternary used for both the preferred side and each
fallback in `findBestPlacement`. -/
def requiredDim (needed : Size) : Placement → ℚ
  | .top => needed.height
  | .bottom => needed.height
  | .left => needed.width
  | .right => needed.width

/-- The `for (const fallback of fallbacks)` loop of `findBestPlacement`:
first fallback whose available space is at least its required dimension. -/
def findFit (rect : Rect) (vp : Viewport) (needed : Size) :
    List Placement → Option Placement
  | [] => none
  | f :: fs =>
    if getAvailableSpace rect vp f ≥ requiredDim needed f then some f
    else findFit rect vp needed fs

/-- The `options.reduce(...)` of `findBestPlacement`: fold over the
remaining candidates keeping the accumulator unless the current side has
strictly more available space. -/
def mostSpace (rect : Rect) (vp : Viewport) : Placement → List Placement → Placement
  | best, [] => best
  | best, c :: cs =>
    mostSpace rect vp
      (if getAvailableSpace rect vp c > getAvailableSpace rect vp best then c else best) cs

/-- `findBestPlacement(anchor, popover, preferred, fallbacks)` from v0.2.0. -/
def findBestPlacement (rect : Rect) (vp : Viewport) (needed : Size)
    (preferred : Placement) (fallbacks : List Placement) : Placement :=
  if getAvailableSpace rect vp preferred ≥ requiredDim needed preferred then preferred
  else
    match findFit rect vp needed fallbacks with
    | some f => f
    | none => mostSpace rect vp preferred fallbacks

/-- The v0.2.0 `createPopover` default for the `fallbacks` option:
`["top", "right", "left"].filter(p => p !== placement)`. -/
def defaultFallbacks (placement : Placement) : List Placement :=
  [Placement.top, Placement.right, Placement.left].filter (fun p => p ≠ placement)

/-! ## v0.1.2 — `computeScores` and `computeBest` (Policy B) -/

/-- The `PlacementScore` interface of v0.1.2. -/
structure PlacementScore where
  placement : Placement
  space : ℚ
  overflow : ℚ
  misalign : ℚ
  preference : ℚ
  score : ℚ
deriving DecidableEq, Repr

/-- The candidate record literal built by `computeScores` for each side
(`score` still `0`, exactly as in the source's object literal).  `prefs`
models the partial record `Partial<Record<Placement, number>>`;
`prefs.top ?? 0` becomes `(prefs .top).getD 0`. -/
def rawCandidate (r : Rect) (vw vh : ℚ) (size : Size)
    (prefs : Placement → Option ℚ) : Placement → PlacementScore
  | .top =>
    { placement := .top
      space := r.top
      overflow := max (size.height - r.top) 0
      misalign := |r.left + r.width / 2 - (r.left + size.width / 2)|
      preference := (prefs .top).getD 0
      score := 0 }
  | .bottom =>
    { placement := .bottom
      space := vh - r.bottom
      overflow := max (size.height - (vh - r.bottom)) 0
      misalign := |r.left + r.width / 2 - (r.left + size.width / 2)|
      preference := (prefs .bottom).getD 0
      score := 0 }
  | .left =>
    { placement := .left
      space := r.left
      overflow := max (size.width - r.left) 0
      misalign := |r.top + r.height / 2 - (r.top + size.height / 2)|
      preference := (prefs .left).getD 0
      score := 0 }
  | .right =>
    { placement := .right
      space := vw - r.right
      overflow := max (size.width - (vw - r.right)) 0
      misalign := |r.top + r.height / 2 - (r.top + size.height / 2)|
      preference := (prefs .right).getD 0
      score := 0 }

/-- The scoring pass `s.score = s.space - s.overflow - s.misalign + s.preference`. -/
def scoreOf (s : PlacementScore) : PlacementScore :=
  { s with score := s.space - s.overflow - s.misalign + s.preference }

/-- `Object.values(candidates)` in insertion order, already scored. -/
def scoredCandidates (r : Rect) (vw vh : ℚ) (size : Size)
    (prefs : Placement → Option ℚ) : List PlacementScore :=
  ([Placement.top, Placement.bottom, Placement.left, Placement.right].map
    (rawCandidate r vw vh size prefs)).map scoreOf

/-- One step of a stable descending insertion sort: the incoming element
`x` (earlier in the original list than everything in the sorted tail)
goes before `y` exactly when `y.score ≤ x.score`.  This reproduces the
stable `sort((a, b) => b.score - a.score)` of ECMAScript. -/
def insertDesc (x : PlacementScore) : List PlacementScore → List PlacementScore
  | [] => [x]
  | y :: ys => if y.score ≤ x.score then x :: y :: ys else y :: insertDesc x ys

/-- Stable sort by descending `score`, modelling the (stable) JavaScript
`Array.prototype.sort` with comparator `(a, b) => b.score - a.score`. -/
def sortDesc (l : List PlacementScore) : List PlacementScore :=
  l.foldr insertDesc []

/-- `computeScores(anchor, size, prefs)` from v0.1.2: score all four
sides, then sort by descending score. -/
def computeScores (r : Rect) (vw vh : ℚ) (size : Size)
    (prefs : Placement → Option ℚ) : List PlacementScore :=
  sortDesc (scoredCandidates r vw vh size prefs)

/-- `scores.find(x => x.placement === order[i]).score += bonus`: add `b`
to the score of the first entry whose placement is `p`, leaving the list
order and every other field untouched (the in-place mutation of the
found object). -/
def addToFirst (p : Placement) (b : ℚ) : List PlacementScore → List PlacementScore
  | [] => []
  | s :: ss =>
    if s.placement = p then { s with score := s.score + b } :: ss
    else s :: addToFirst p b ss

/-- The bonus loop of `computeBest`: at step `i` of `order` the bonus is
`(order.length - i) * 10_000`, i.e. `(length of the remaining suffix) *
10_000`. -/
def applyBonuses : List Placement → List PlacementScore → List PlacementScore
  | [], scores => scores
  | p :: ps, scores =>
    applyBonuses ps (addToFirst p ((ps.length + 1 : ℕ) * 10000) scores)

/-- `computeBest()` from v0.1.2: score and sort, mutate the scores with
the positional bonuses, then return `scores[0].placement`.  JavaScript's
`scores[0]` on an empty array would be `undefined` (and `.placement`
would throw), hence the `Option`. -/
def computeBest (r : Rect) (vw vh : ℚ) (size : Size)
    (prefs : Placement → Option ℚ) (order : List Placement) : Option Placement :=
  (applyBonuses order (computeScores r vw vh size prefs)).head?.map (·.placement)

/-! ## Reactive controller (v0.2.0 `createPopover`)

The DOM's observer machinery is an external collaborator; its contract —
a registered callback fires exactly when its subscription is live — is
encoded in `deliver`.  The controller's own transitions (`update`,
`destroy`, the subscriptions acquired at construction) are translated
from `createPopover`. -/

/-- The configuration captured by the `createPopover` closure. -/
structure Config where
  placement : Placement
  fallbacks : List Placement

/-- Observable state of one controller: the placement attribute written
by `setPlacement`, how often `update()` has run, whether the
`ResizeObserver` is still connected, which scroll parents still hold the
`update` listener, and whether the panel is still in the document. -/
structure ControllerState where
  activePlacement : Placement
  updateCount : ℕ
  roConnected : Bool
  scrollSubs : List ℕ
  attached : Bool
deriving DecidableEq, Repr

/-- `update()` from v0.2.0: recompute the best placement from the current
geometry and write it to the panel's presentation state. -/
def updateCtrl (cfg : Config) (rect : Rect) (vp : Viewport) (needed : Size)
    (st : ControllerState) : ControllerState :=
  { st with
      activePlacement :=
        findBestPlacement rect vp needed cfg.placement cfg.fallbacks
      updateCount := st.updateCount + 1 }

/-- `destroy()` from v0.2.0: `resizeObserver.disconnect()`, remove the
scroll listener from every scroll parent, `popover.remove()`. -/
def destroyCtrl (st : ControllerState) : ControllerState :=
  { st with roConnected := false, scrollSubs := [], attached := false }

/-- The state set up at the end of `createPopover`: observer connected,
scroll listeners on every scroll parent, panel attached, initial
placement written by `setPlacement(popover, placement)`. -/
def createState (placement : Placement) (parents : List ℕ) : ControllerState :=
  { activePlacement := placement
    updateCount := 0
    roConnected := true
    scrollSubs := parents
    attached := true }

/-- An external layout signal: a size change observed by the
`ResizeObserver`, or a scroll on one ancestor. -/
inductive Signal where
  | sizeChange
  | scroll (parent : ℕ)

/-- DOM delivery contract: a size-change signal runs the observer
callback (`update`) iff the observer is connected; a scroll on `parent`
runs the listener (`update`) iff that parent still holds it. -/
def deliver (cfg : Config) (rect : Rect) (vp : Viewport) (needed : Size)
    (st : ControllerState) : Signal → ControllerState
  | .sizeChange => if st.roConnected then updateCtrl cfg rect vp needed st else st
  | .scroll p => if p ∈ st.scrollSubs then updateCtrl cfg rect vp needed st else st

/-! ## Lemmas -/

/-- `insertDesc` inserts: the result is a permutation of `x :: l`. -/
lemma insertDesc_perm (x : PlacementScore) :
    ∀ l : List PlacementScore, (insertDesc x l).Perm (x :: l) := by
  intro l
  induction l with
  | nil => simp [insertDesc]
  | cons y ys ih =>
    by_cases h : y.score ≤ x.score
    · simp [insertDesc, h]
    · simp only [insertDesc, if_neg h]
      exact (ih.cons y).trans (List.Perm.swap x y ys)

/-- The stable sort permutes its input. -/
lemma sortDesc_perm : ∀ l : List PlacementScore, (sortDesc l).Perm l := by
  intro l
  induction l with
  | nil => simp [sortDesc]
  | cons x xs ih =>
    have h1 : sortDesc (x :: xs) = insertDesc x (sortDesc xs) := rfl
    rw [h1]
    exact (insertDesc_perm x (sortDesc xs)).trans (ih.cons x)

/-- Unfold `List.argmax` on a cons into a `foldl` with a `some` seed. -/
lemma argmax_cons_foldl {α : Type} (f : α → ℚ) (a : α) (l : List α) :
    List.argmax f (a :: l) =
      l.foldl (List.argAux fun b c => f c < f b) (some a) := rfl

/-- The `options.reduce` of `findBestPlacement` computes `List.argmax`
of the available space over `best :: cs`: the first candidate with the
greatest available space (the accumulator is replaced only on strictly
more space, so ties keep the earlier candidate). -/
lemma mostSpace_argmax (rect : Rect) (vp : Viewport) :
    ∀ (cs : List Placement) (best : Placement),
      List.argmax (getAvailableSpace rect vp) (best :: cs) =
        some (mostSpace rect vp best cs) := by
  intro cs
  induction cs with
  | nil => intro best; simp [mostSpace]
  | cons c cs ih =>
    intro best
    rw [argmax_cons_foldl, List.foldl_cons]
    by_cases h :
        getAvailableSpace rect vp best < getAvailableSpace rect vp c
    · have hstep :
          List.argAux (fun b c' => getAvailableSpace rect vp c' <
            getAvailableSpace rect vp b) (some best) c = some c := by
        simp [List.argAux, h]
      rw [hstep, ← argmax_cons_foldl, ih c]
      simp [mostSpace, h]
    · have hstep :
          List.argAux (fun b c' => getAvailableSpace rect vp c' <
            getAvailableSpace rect vp b) (some best) c = some best := by
        simp [List.argAux, h]
      rw [hstep, ← argmax_cons_foldl, ih best]
      simp [mostSpace, h]

/-- The head of the stable descending sort is the first entry attaining
the maximum score — i.e. `List.argmax` of the score. -/
lemma sortDesc_head_argmax :
    ∀ l : List PlacementScore,
      (sortDesc l).head? = List.argmax (·.score) l := by
  intro l
  induction l with
  | nil => rfl
  | cons x xs ih =>
    rw [List.argmax_cons]
    show (insertDesc x (sortDesc xs)).head? = _
    cases h : sortDesc xs with
    | nil =>
      have hxs : List.argmax (·.score) xs = none := by
        rw [← ih, h]; rfl
      rw [hxs]
      simp [insertDesc]
    | cons y ys =>
      have hxs : List.argmax (·.score) xs = some y := by
        rw [← ih, h]; rfl
      rw [hxs]
      by_cases hc : y.score ≤ x.score
      · simp [insertDesc, hc, not_lt.mpr hc]
      · simp [insertDesc, hc, not_le.mp hc]

/-- The fallback loop is `List.find?` of the fits-check over the list. -/
lemma findFit_eq_find? (rect : Rect) (vp : Viewport) (needed : Size) :
    ∀ fs : List Placement,
      findFit rect vp needed fs =
        fs.find? (fun f =>
          decide (requiredDim needed f ≤ getAvailableSpace rect vp f)) := by
  intro fs
  induction fs with
  | nil => rfl
  | cons f fs ih =>
    by_cases h : requiredDim needed f ≤ getAvailableSpace rect vp f
    · simp [findFit, ge_iff_le, h]
    · simp [findFit, ge_iff_le, h, ih]

/-- A fallback accepted by the loop is one of the fallbacks. -/
lemma findFit_mem {rect : Rect} {vp : Viewport} {needed : Size}
    {fs : List Placement} {f : Placement}
    (h : findFit rect vp needed fs = some f) : f ∈ fs := by
  rw [findFit_eq_find?] at h
  exact List.mem_of_find?_eq_some h

/-- The reduce never leaves the candidate list. -/
lemma mostSpace_mem (rect : Rect) (vp : Viewport) (best : Placement)
    (cs : List Placement) : mostSpace rect vp best cs ∈ best :: cs := by
  have h := mostSpace_argmax rect vp cs best
  exact List.argmax_mem (by rw [Option.mem_def]; exact h)

/-- Every result of `findBestPlacement` is the preferred side or one of
the fallbacks. -/
lemma findBestPlacement_mem (rect : Rect) (vp : Viewport) (needed : Size)
    (preferred : Placement) (fallbacks : List Placement) :
    findBestPlacement rect vp needed preferred fallbacks ∈
      preferred :: fallbacks := by
  by_cases h :
      getAvailableSpace rect vp preferred ≥ requiredDim needed preferred
  · simp [findBestPlacement, h]
  · cases hf : findFit rect vp needed fallbacks with
    | some f =>
      simp only [findBestPlacement, if_neg h, hf]
      exact List.mem_cons_of_mem _ (findFit_mem hf)
    | none =>
      simp only [findBestPlacement, if_neg h, hf]
      exact mostSpace_mem rect vp preferred fallbacks

/-- The bonus mutation changes scores only: the placements, in order,
are untouched. -/
lemma addToFirst_map_placement (p : Placement) (b : ℚ) :
    ∀ l : List PlacementScore,
      (addToFirst p b l).map (·.placement) = l.map (·.placement) := by
  intro l
  induction l with
  | nil => rfl
  | cons s ss ih =>
    by_cases h : s.placement = p <;> simp [addToFirst, h, ih]

/-- The whole bonus loop leaves the sequence of placements unchanged. -/
lemma applyBonuses_map_placement :
    ∀ (order : List Placement) (l : List PlacementScore),
      (applyBonuses order l).map (·.placement) = l.map (·.placement) := by
  intro order
  induction order with
  | nil => intro l; rfl
  | cons p ps ih =>
    intro l
    show (applyBonuses ps _).map _ = _
    rw [ih, addToFirst_map_placement]

/-- `computeBest` returns the placement of the first entry with the
greatest *pre-bonus* score: the bonus loop mutates scores after the sort
and the array is never re-sorted, so it cannot change `scores[0]`. -/
lemma computeBest_eq_argmax (r : Rect) (vw vh : ℚ) (size : Size)
    (prefs : Placement → Option ℚ) (order : List Placement) :
    computeBest r vw vh size prefs order =
      (List.argmax (·.score) (scoredCandidates r vw vh size prefs)).map
        (·.placement) := by
  show (applyBonuses order (computeScores r vw vh size prefs)).head?.map
      (·.placement) = _
  have h1 :
      ((applyBonuses order (computeScores r vw vh size prefs)).map
        (·.placement)).head? =
      ((computeScores r vw vh size prefs).map (·.placement)).head? := by
    rw [applyBonuses_map_placement]
  rw [List.head?_map, List.head?_map] at h1
  rw [h1]
  show ((sortDesc (scoredCandidates r vw vh size prefs)).head?).map _ = _
  rw [sortDesc_head_argmax]

/-- Policy A as §4.2 of the spec states it: take the preferred side if
it fits, else the first fitting fallback, else the side among
preferred-then-fallbacks with the greatest available space, ties to the
earliest position (`List.argmax` keeps the first maximum). -/
def specPolicyA (rect : Rect) (vp : Viewport) (needed : Size)
    (preferred : Placement) (fallbacks : List Placement) : Placement :=
  if requiredDim needed preferred ≤ getAvailableSpace rect vp preferred then
    preferred
  else
    match fallbacks.find? (fun f =>
        decide (requiredDim needed f ≤ getAvailableSpace rect vp f)) with
    | some f => f
    | none =>
      (List.argmax (getAvailableSpace rect vp) (preferred :: fallbacks)).getD
        preferred

/-- After `destroy()`, no signal changes the state: the observer is
disconnected and no scroll parent holds the listener. -/
lemma deliver_destroyed (cfg : Config) (rect : Rect) (vp : Viewport)
    (needed : Size) (st : ControllerState) (sig : Signal) :
    deliver cfg rect vp needed (destroyCtrl st) sig = destroyCtrl st := by
  cases sig <;> simp [deliver, destroyCtrl]

/-! ## Concrete sample inputs -/

/-- The anchor of the spec's §8 scenarios. -/
def sampleAnchor : Rect := { top := 500, left := 100, width := 50, height := 20 }

/-- The 800×600 viewport of the spec's §8 scenarios. -/
def sampleViewport : Viewport := { width := 800, height := 600 }

/-- First scenario footprint. -/
def smallFootprint : Size := { width := 120, height := 40 }

/-- Second scenario footprint. -/
def tallFootprint : Size := { width := 120, height := 150 }

/-- An anchor whose width differs from the footprint's, exposing the
nonzero misalignment term. -/
def cexAnchor : Rect := { top := 100, left := 200, width := 50, height := 20 }

/-- Footprint for the misalignment counterexamples. -/
def cexFootprint : Size := { width := 120, height := 40 }

/-- An empty bias map (`preference = {}`). -/
def noBias : Placement → Option ℚ := fun _ => none

/-- Anchor for the Policy B selection counterexample. -/
def c1Anchor : Rect := { top := 100, left := 400, width := 50, height := 20 }

/-- Footprint for the Policy B selection counterexample. -/
def c1Footprint : Size := { width := 10, height := 10 }

/-- A bias map giving `bottom` a bias larger than any positional bonus. -/
def c1Bias : Placement → Option ℚ
  | .bottom => some 20000
  | _ => none

/-! ## Claim theorems -/

/-- C1 (counterexample).  With anchor `{top:100, left:400, width:50,
height:20}` in an 800×600 viewport, footprint 10×10, bias map
`{bottom: 20000}` and preference sequence `[top]`: the unpreferred side
`bottom` ends with final score 20460, above the preferred side `top`'s
final score 10080, and `computeBest` selects `bottom` even though a
preferred side exists — both halves of the claim fail. -/
theorem computeBest_ignores_bonus_cex :
    computeBest c1Anchor 800 600 c1Footprint c1Bias [Placement.top] =
      some Placement.bottom ∧
    Placement.bottom ∉ [Placement.top] ∧
    ((applyBonuses [Placement.top]
        (computeScores c1Anchor 800 600 c1Footprint c1Bias)).map
        (fun e => (e.placement, e.score))) =
      [(Placement.bottom, 20460), (Placement.left, 395),
        (Placement.right, 345), (Placement.top, 10080)] := by
  refine ⟨?_, by simp, ?_⟩ <;>
    · norm_num [computeBest, computeScores, scoredCandidates, rawCandidate,
        scoreOf, sortDesc, insertDesc, applyBonuses, addToFirst, c1Anchor,
        c1Footprint, c1Bias, Rect.bottom, Rect.right, abs]
      simp

/-- C1 (amended).  In v0.1.2 `computeBest` the positional bonuses are
added to the stored scores, but the already-sorted array is never
re-sorted: for every geometry, footprint, bias map and preference
sequence the selected side is the side with the greatest *pre-bonus*
score (first of top, bottom, left, right on ties), independent of the
preference sequence. -/
theorem computeBest_selects_raw_max (r : Rect) (vw vh : ℚ) (size : Size)
    (prefs : Placement → Option ℚ) (order : List Placement) :
    computeBest r vw vh size prefs order =
      (List.argmax (·.score) (scoredCandidates r vw vh size prefs)).map
        (·.placement) :=
  computeBest_eq_argmax r vw vh size prefs order

/-- C2.  Policy A's `findBestPlacement` coincides with the spec's
description: the preferred side if it fits, else the first fitting
fallback, else the candidate with the greatest available space, ties
broken toward the earliest position in the preferred-then-fallback
sequence (`List.argmax` keeps the first maximum, which is never `none`
on the non-empty candidate list). -/
theorem findBestPlacement_eq_spec (rect : Rect) (vp : Viewport)
    (needed : Size) (preferred : Placement) (fallbacks : List Placement) :
    findBestPlacement rect vp needed preferred fallbacks =
      specPolicyA rect vp needed preferred fallbacks ∧
    List.argmax (getAvailableSpace rect vp) (preferred :: fallbacks) ≠
      none := by
  constructor
  · by_cases h :
        requiredDim needed preferred ≤ getAvailableSpace rect vp preferred
    · simp [findBestPlacement, specPolicyA, ge_iff_le, h]
    · cases hf : findFit rect vp needed fallbacks with
      | some f =>
        have hf2 : fallbacks.find? (fun f =>
            decide (requiredDim needed f ≤ getAvailableSpace rect vp f)) =
              some f := by
          rw [← findFit_eq_find?]; exact hf
        simp [findBestPlacement, specPolicyA, ge_iff_le, h, hf, hf2]
      | none =>
        have hf2 : fallbacks.find? (fun f =>
            decide (requiredDim needed f ≤ getAvailableSpace rect vp f)) =
              none := by
          rw [← findFit_eq_find?]; exact hf
        simp only [findBestPlacement, specPolicyA, ge_iff_le, if_neg h, hf,
          hf2]
        rw [mostSpace_argmax]
        rfl
  · rw [mostSpace_argmax]
    simp

/-- C3 (counterexample).  For an anchor 50 wide and a footprint 120
wide, the `misalign` field of the `top` candidate is 35, not 0: the
centering comparison is `|r.left + r.width/2 − (r.left + size.width/2)|`,
which compares the anchor's half-width against the panel's, not a
coordinate against itself. -/
theorem misalign_ne_zero_cex :
    (rawCandidate cexAnchor 800 600 cexFootprint noBias
        Placement.top).misalign = 35 ∧
    (35 : ℚ) ≠ 0 := by
  constructor
  · norm_num [rawCandidate, cexAnchor, cexFootprint, abs]
  · norm_num

/-- C3 (amended).  The misalignment term of v0.1.2 `computeScores` is
independent of the anchor's position but not always zero: for `top` and
`bottom` it equals `|anchor.width − footprint.width| / 2`, for `left`
and `right` it equals `|anchor.height − footprint.height| / 2`; it
vanishes exactly when the footprint matches the anchor's cross-axis
dimension. -/
theorem misalign_formula (r : Rect) (vw vh : ℚ) (size : Size)
    (prefs : Placement → Option ℚ) :
    (rawCandidate r vw vh size prefs Placement.top).misalign =
      |r.width - size.width| / 2 ∧
    (rawCandidate r vw vh size prefs Placement.bottom).misalign =
      |r.width - size.width| / 2 ∧
    (rawCandidate r vw vh size prefs Placement.left).misalign =
      |r.height - size.height| / 2 ∧
    (rawCandidate r vw vh size prefs Placement.right).misalign =
      |r.height - size.height| / 2 := by
  have hw : r.left + r.width / 2 - (r.left + size.width / 2) =
      (r.width - size.width) / 2 := by ring
  have hh : r.top + r.height / 2 - (r.top + size.height / 2) =
      (r.height - size.height) / 2 := by ring
  have h2 : |(2 : ℚ)| = 2 := by norm_num
  refine ⟨?_, ?_, ?_, ?_⟩ <;> simp only [rawCandidate]
  · rw [hw, abs_div, h2]
  · rw [hw, abs_div, h2]
  · rw [hh, abs_div, h2]
  · rw [hh, abs_div, h2]

/-- C4 (counterexample).  At a concrete input the scores of all four
entries differ from the claimed `space − overflow + bias`: e.g. the
first-ranked entry (`right`) has score 540, while
`space − overflow + bias = 550` — the code also subtracts the
misalignment term. -/
theorem computeScores_formula_cex :
    ((computeScores cexAnchor 800 600 cexFootprint noBias).map
        (fun e => (e.placement, e.score,
          e.space - e.overflow + e.preference))) =
      [(Placement.right, 540, 550), (Placement.bottom, 445, 480),
        (Placement.left, 190, 200), (Placement.top, 65, 100)] ∧
    (540 : ℚ) ≠ 550 := by
  constructor
  · norm_num [computeScores, scoredCandidates, rawCandidate, scoreOf,
      sortDesc, insertDesc, cexAnchor, cexFootprint, noBias, Rect.bottom,
      Rect.right, abs]
  · norm_num

/-- C4 (amended).  v0.1.2 `computeScores` scores all four sides — the
output placements are a permutation of {top, bottom, left, right} — each
entry satisfying `overflow = max(footprint_dimension − space, 0)`,
`preference = bias with default 0`, and
`score = space − overflow − misalign + preference` (the claim's formula
plus the subtracted misalignment term); the first-ranked entry is the
first entry, in enumeration order top, bottom, left, right, attaining
the maximum score. -/
theorem computeScores_characterization (r : Rect) (vw vh : ℚ) (size : Size)
    (prefs : Placement → Option ℚ) :
    ((computeScores r vw vh size prefs).map (·.placement)).Perm
      [Placement.top, Placement.bottom, Placement.left, Placement.right] ∧
    (∀ e ∈ computeScores r vw vh size prefs,
      e.overflow = max (requiredDim size e.placement - e.space) 0 ∧
      e.score = e.space - e.overflow - e.misalign + e.preference ∧
      e.preference = (prefs e.placement).getD 0) ∧
    (computeScores r vw vh size prefs).head? =
      List.argmax (·.score) (scoredCandidates r vw vh size prefs) := by
  refine ⟨?_, ?_, sortDesc_head_argmax _⟩
  · have h1 := (sortDesc_perm (scoredCandidates r vw vh size prefs)).map
      (·.placement)
    have h2 : (scoredCandidates r vw vh size prefs).map (·.placement) =
        [Placement.top, Placement.bottom, Placement.left, Placement.right] :=
      rfl
    rw [h2] at h1
    exact h1
  · intro e he
    have hmem : e ∈ scoredCandidates r vw vh size prefs :=
      (sortDesc_perm _).mem_iff.mp he
    simp only [scoredCandidates, List.map_map, List.map_cons, List.map_nil,
      List.mem_cons, List.not_mem_nil, or_false, Function.comp] at hmem
    rcases hmem with rfl | rfl | rfl | rfl <;>
      exact ⟨rfl, rfl, rfl⟩

/-- C4 witness: the characterization applied at the concrete
counterexample geometry, instantiated at the `top` entry of the output
(whose membership is discharged by evaluation). -/
theorem computeScores_characterization_witness :
    (scoreOf (rawCandidate cexAnchor 800 600 cexFootprint noBias
        Placement.top)).score =
      (scoreOf (rawCandidate cexAnchor 800 600 cexFootprint noBias
        Placement.top)).space -
      (scoreOf (rawCandidate cexAnchor 800 600 cexFootprint noBias
        Placement.top)).overflow -
      (scoreOf (rawCandidate cexAnchor 800 600 cexFootprint noBias
        Placement.top)).misalign +
      (scoreOf (rawCandidate cexAnchor 800 600 cexFootprint noBias
        Placement.top)).preference := by
  refine ((computeScores_characterization cexAnchor 800 600 cexFootprint
    noBias).2.1 _ ?_).2.1
  have hmem : scoreOf (rawCandidate cexAnchor 800 600 cexFootprint noBias
      Placement.top) ∈ scoredCandidates cexAnchor 800 600 cexFootprint
      noBias := by
    simp [scoredCandidates]
  exact (sortDesc_perm _).mem_iff.mpr hmem

/-- C5.  Both selectors are total: `findBestPlacement` always returns
one of the four sides, and `computeBest` always returns `some` side
(its sorted, bonus-mutated score list is never empty). -/
theorem selectors_total (rect : Rect) (vp : Viewport) (needed : Size)
    (preferred : Placement) (fallbacks : List Placement) (r : Rect)
    (vw vh : ℚ) (size : Size) (prefs : Placement → Option ℚ)
    (order : List Placement) :
    findBestPlacement rect vp needed preferred fallbacks ∈
      [Placement.top, Placement.bottom, Placement.left, Placement.right] ∧
    ∃ p ∈ [Placement.top, Placement.bottom, Placement.left,
        Placement.right],
      computeBest r vw vh size prefs order = some p := by
  constructor
  · cases findBestPlacement rect vp needed preferred fallbacks <;> simp
  · rw [computeBest_eq_argmax]
    cases harg : List.argmax (·.score) (scoredCandidates r vw vh size prefs)
      with
    | none =>
      rw [List.argmax_eq_none] at harg
      exact absurd harg (by simp [scoredCandidates])
    | some m =>
      refine ⟨m.placement, ?_, rfl⟩
      cases m.placement <;> simp

/-- C6.  The geometry sampler of v0.2.0: for `top` the anchor's top
offset, for `bottom` the viewport height minus the anchor's bottom
offset (`top + height`), for `left` the anchor's left offset, for
`right` the viewport width minus the anchor's right offset
(`left + width`); a pure total function, so zero or negative values are
returned unchanged. -/
theorem getAvailableSpace_formulas (rect : Rect) (vp : Viewport) :
    getAvailableSpace rect vp Placement.top = rect.top ∧
    getAvailableSpace rect vp Placement.bottom =
      vp.height - (rect.top + rect.height) ∧
    getAvailableSpace rect vp Placement.left = rect.left ∧
    getAvailableSpace rect vp Placement.right =
      vp.width - (rect.left + rect.width) :=
  ⟨rfl, rfl, rfl, rfl⟩

/-- C7.  The spec's two concrete Policy A scenarios: with anchor
`{top:500, left:100, width:50, height:20}` in an 800×600 viewport and
preference `bottom` with fallbacks `[top, right, left]`, a 120×40
footprint fits below (80 ≥ 40) and yields `bottom`, while a 120×150
footprint does not (80 < 150) and the first fitting fallback `top`
(500 ≥ 150) wins. -/
theorem policyA_scenarios :
    getAvailableSpace sampleAnchor sampleViewport Placement.bottom = 80 ∧
    findBestPlacement sampleAnchor sampleViewport smallFootprint
      Placement.bottom [Placement.top, Placement.right, Placement.left] =
      Placement.bottom ∧
    getAvailableSpace sampleAnchor sampleViewport Placement.top = 500 ∧
    findBestPlacement sampleAnchor sampleViewport tallFootprint
      Placement.bottom [Placement.top, Placement.right, Placement.left] =
      Placement.top := by
  refine ⟨?_, ?_, ?_, ?_⟩ <;>
    norm_num [findBestPlacement, getAvailableSpace, requiredDim, findFit,
      mostSpace, sampleAnchor, sampleViewport, smallFootprint, tallFootprint,
      Rect.bottom, Rect.right]

/-- C8.  Re-evaluation is idempotent and memoryless: with the geometry
fixed, a second `update()` writes the same placement as the first, and
the placement written never depends on the previously active placement
(or any other prior controller state). -/
theorem update_idempotent_memoryless (cfg : Config) (rect : Rect)
    (vp : Viewport) (needed : Size) (st st' : ControllerState) :
    (updateCtrl cfg rect vp needed
        (updateCtrl cfg rect vp needed st)).activePlacement =
      (updateCtrl cfg rect vp needed st).activePlacement ∧
    (updateCtrl cfg rect vp needed st).activePlacement =
      (updateCtrl cfg rect vp needed st').activePlacement :=
  ⟨rfl, rfl⟩

/-- C9.  `destroy()` severs every subscription: from any controller
state, after `destroyCtrl` no sequence of size-change or scroll signals
changes the state at all — in particular `update()` never runs again
(the update count stays put) and the released subscriptions stay
released. -/
theorem destroy_severs_subscriptions (cfg : Config) (rect : Rect)
    (vp : Viewport) (needed : Size) (st : ControllerState)
    (sigs : List Signal) :
    sigs.foldl (deliver cfg rect vp needed) (destroyCtrl st) =
      destroyCtrl st ∧
    (sigs.foldl (deliver cfg rect vp needed)
        (destroyCtrl st)).updateCount = st.updateCount := by
  have h : sigs.foldl (deliver cfg rect vp needed) (destroyCtrl st) =
      destroyCtrl st := by
    induction sigs with
    | nil => rfl
    | cons sig sigs ih =>
      rw [List.foldl_cons, deliver_destroyed]
      exact ih
  exact ⟨h, by rw [h]; rfl⟩

/-- C10.  The v0.2.0 default fallback list filters the preferred side
out of `[top, right, left]`: the preferred side occurs exactly once
among the candidates, and for any preferred side other than `bottom`
the side `bottom` is not a candidate, so `findBestPlacement` can never
return it — not even through the most-available-space step. -/
theorem defaultFallbacks_excludes (p : Placement) :
    p ∉ defaultFallbacks p ∧
    (p :: defaultFallbacks p).count p = 1 ∧
    (p ≠ Placement.bottom →
      ∀ (rect : Rect) (vp : Viewport) (needed : Size),
        findBestPlacement rect vp needed p (defaultFallbacks p) ≠
          Placement.bottom) := by
  refine ⟨?_, ?_, ?_⟩
  · cases p <;> decide
  · cases p <;> decide
  · intro hp rect vp needed heq
    have hmem := findBestPlacement_mem rect vp needed p (defaultFallbacks p)
    rw [heq] at hmem
    cases p
    · exact absurd hmem (by decide)
    · exact hp rfl
    · exact absurd hmem (by decide)
    · exact absurd hmem (by decide)

/-- C10 witness: instantiated at preferred side `top` and the sample
geometry. -/
theorem defaultFallbacks_excludes_witness :
    Placement.top ∉ defaultFallbacks Placement.top ∧
    (Placement.top :: defaultFallbacks Placement.top).count
      Placement.top = 1 ∧
    findBestPlacement sampleAnchor sampleViewport smallFootprint
      Placement.top (defaultFallbacks Placement.top) ≠ Placement.bottom := by
  obtain ⟨h1, h2, h3⟩ := defaultFallbacks_excludes Placement.top
  exact ⟨h1, h2, h3 (by decide) sampleAnchor sampleViewport smallFootprint⟩

end PopoverLite
